import Mathlib

/-!
Shallow embedding of the scheduled-pin subsystem of the csv2pin backend
(`src/index.js`): the due-job query of `processScheduledPins`, the claim /
post / fail steps of `processScheduledPin`, the retry policy of
`handlePinError`, credit deduction `deductUserCredits`, the analytics rate
computation shared by `syncUserAnalytics` and
`POST /api/pinterest/sync-analytics`, and the HTTP handlers for scheduling,
listing, updating and cancelling scheduled pins.

Modelling conventions: timestamps are integer epoch milliseconds; JavaScript
request-body values are modelled by `JSVal` with JavaScript truthiness, and
date-bearing fields carry their epoch value in the `num` constructor; the
database store is a list of rows.
-/

/-- The `status` column of `scheduled_pins`. -/
inductive Status where
  | scheduled
  | posting
  | posted
  | failed
  | cancelled
deriving DecidableEq, Repr

/-- JavaScript request-body values, as far as the handlers inspect them. -/
inductive JSVal where
  | undefined
  | null
  | bool (b : Bool)
  | num (n : Int)
  | str (s : String)
deriving DecidableEq, Repr

/-- JavaScript truthiness, used by the handlers in `if (field)` guards. -/
def JSVal.truthy : JSVal → Bool
  | .undefined => false
  | .null => false
  | .bool b => b
  | .num n => n != 0
  | .str s => s != ""

/-- JavaScript string coercion for the text-valued columns. -/
def JSVal.toStr : JSVal → String
  | .undefined => "undefined"
  | .null => "null"
  | .bool b => if b then "true" else "false"
  | .num n => toString n
  | .str s => s

/-- `new Date(v)` for a date-bearing field, with dates as epoch ms.
Date-valued request fields are modelled in the `num` constructor. -/
def JSVal.toDate : JSVal → Int
  | .num n => n
  | _ => 0

/-- A row of the `scheduled_pins` table, restricted to the columns the
claims depend on. `hasAccessToken` models the joined
`pinterest_accounts(access_token)` being present and non-null. -/
structure Pin where
  id : Nat
  userId : Nat
  title : String
  description : String
  imageUrl : String
  boardId : String
  link : String
  timezone : String
  status : Status
  scheduledFor : Int
  nextRetryAt : Option Int
  retryCount : Nat
  creditsDeducted : Bool
  errorMessage : Option String
  pinterestPinId : Option String
  isRecurring : Bool
  recurrencePattern : Option JSVal
  hasAccessToken : Bool
deriving DecidableEq, Repr

/-- The row filter of the due-pin query in `processScheduledPins`:
`status in ('scheduled','failed')`, `scheduled_for <= now`, and
`next_retry_at is null or next_retry_at <= now`.  There is no condition on
`retry_count`. -/
def isDue (now : Int) (p : Pin) : Bool :=
  (p.status == .scheduled || p.status == .failed) &&
  p.scheduledFor ≤ now &&
  (match p.nextRetryAt with
   | none => true
   | some t => t ≤ now)

/-- `order('scheduled_for', ascending)`. -/
def dueOrder (a b : Pin) : Prop := a.scheduledFor ≤ b.scheduledFor

instance : DecidableRel dueOrder := fun a b =>
  inferInstanceAs (Decidable (a.scheduledFor ≤ b.scheduledFor))

instance : IsTotal Pin dueOrder := ⟨fun a b => Int.le_total a.scheduledFor b.scheduledFor⟩

instance : IsTrans Pin dueOrder := ⟨fun _ _ _ hab hbc => le_trans hab hbc⟩

/-- `limit(10)` of the due-pin query. -/
def dueLimit : Nat := 10

/-- The due-pin query of `processScheduledPins`: filter, order by
`scheduled_for` ascending, take at most 10 rows. -/
def fetchDue (store : List Pin) (now : Int) : List Pin :=
  (List.insertionSort dueOrder (store.filter (isDue now))).take dueLimit

/-- `maxRetries` in `handlePinError`. -/
def maxRetries : Nat := 3

/-- `backoffMinutes = 5 * Math.pow(3, currentRetryCount)`. -/
def backoffMinutes (currentRetryCount : Nat) : Nat := 5 * 3 ^ currentRetryCount

def minuteMs : Int := 60000

/-- `handlePinError(pinId, errorMessage, currentRetryCount)`, purified to act
on the pin row it updates.  Within the cap it increments `retry_count`, sets
status `failed` and `next_retry_at = now + backoffMinutes` minutes; past the
cap it sets status `failed` and `next_retry_at = null`, leaving
`retry_count` unchanged. -/
def handlePinError (p : Pin) (errorMessage : String) (now : Int) : Pin :=
  let nextRetryCount := p.retryCount + 1
  if nextRetryCount ≤ maxRetries then
    { p with
        status := .failed
        errorMessage := some errorMessage
        retryCount := nextRetryCount
        nextRetryAt := some (now + (backoffMinutes p.retryCount : Int) * minuteMs) }
  else
    { p with
        status := .failed
        errorMessage := some ("Max retries reached: " ++ errorMessage)
        nextRetryAt := none }

/-- The success update of `processScheduledPin`: status `posted`, record the
Pinterest id, clear the error, zero the retry bookkeeping.  It does not
touch `credits_deducted`. -/
def markPosted (p : Pin) (pinterestId : String) : Pin :=
  { p with
      status := .posted
      pinterestPinId := some pinterestId
      errorMessage := none
      retryCount := 0
      nextRetryAt := none }

/-- `deductUserCredits`: `newCredits = Math.max(0, credits_remaining - amount)`. -/
def deductUserCredits (creditsRemaining : Int) (amount : Int) : Int :=
  max 0 (creditsRemaining - amount)

/-- The claim step of `processScheduledPin`: the store write
`update({status:'posting'}).eq('id', pin.id)` — keyed by the pin id only,
with no condition on the prior status.  Returns the updated store together
with the number of rows the update matched. -/
def claimPosting (store : List Pin) (pinId : Nat) : List Pin × Nat :=
  (store.map fun p => if p.id == pinId then { p with status := .posting } else p,
   (store.filter fun p => p.id == pinId).length)

/-- Outcome of the Pinterest publish call for one attempt. -/
inductive Outcome where
  | success (pinterestId : String)
  | failure (msg : String)
deriving DecidableEq, Repr

/-- One scheduled job together with its owner's credit balance and a count
of `deductUserCredits` invocations made for this job. -/
structure JobState where
  pin : Pin
  creditsRemaining : Int
  debits : Nat
deriving DecidableEq, Repr

/-- One execution of `processScheduledPin` on the job, given the publish
call's outcome.  On success the pin is marked posted and, exactly when the
fetched pin's `credits_deducted` flag was false, `deductUserCredits` is
called once and the flag is set; on failure `handlePinError` applies the
retry policy.  The transient `status:'posting'` claim write is overwritten
by both branches within the same sequential step. -/
def attempt (s : JobState) (o : Outcome) (now : Int) : JobState :=
  match o with
  | .success pid =>
    let p1 := markPosted s.pin pid
    if !s.pin.creditsDeducted then
      { pin := { p1 with creditsDeducted := true }
        creditsRemaining := deductUserCredits s.creditsRemaining 1
        debits := s.debits + 1 }
    else
      { s with pin := p1 }
  | .failure msg => { s with pin := handlePinError s.pin msg now }

/-- One scheduler pass over the job: the job is attempted exactly when the
due-pin query selects it at that instant, otherwise nothing happens. -/
def schedStep (s : JobState) (ev : Int × Outcome) : JobState :=
  if isDue ev.1 s.pin then attempt s ev.2 ev.1 else s

/-- A whole execution history of one job: a sequence of (time, outcome)
events folded through the scheduler. -/
def runSched (s : JobState) (evs : List (Int × Outcome)) : JobState :=
  evs.foldl schedStep s

/-- Request body of `PUT /api/pinterest/scheduled-pins/:id`.  The `status`
field is modelled as `none` when absent or falsy and `some s` when it is
the (truthy) name of a status. -/
structure UpdateReq where
  title : JSVal
  description : JSVal
  scheduled_for : JSVal
  timezone : JSVal
  status : Option Status
  is_recurring : JSVal
  recurrence_pattern : JSVal
deriving DecidableEq, Repr

/-- Result of the update handler. -/
inductive UpdateResult where
  | notFound
  | badRequest (msg : String)
  | ok (updated : Pin)
deriving DecidableEq, Repr

/-- `.eq('id', id).eq('user_id', user.id).single()`. -/
def findPin (store : List Pin) (userId pinId : Nat) : Option Pin :=
  store.find? fun p => p.id == pinId && p.userId == userId

/-- The `updates` object of the update handler, built key by key with
`if (field)` truthiness guards (`is_recurring` instead uses a
`typeof === 'boolean'` guard), then applied to the stored row; each guard
controls its own distinct column. -/
def applyUpdates (p : Pin) (r : UpdateReq) : Pin :=
  { p with
      title := if r.title.truthy then r.title.toStr else p.title
      description := if r.description.truthy then r.description.toStr else p.description
      scheduledFor := if r.scheduled_for.truthy then r.scheduled_for.toDate else p.scheduledFor
      timezone := if r.timezone.truthy then r.timezone.toStr else p.timezone
      status := match r.status with
                | some st => st
                | none => p.status
      isRecurring := match r.is_recurring with
                     | .bool b => b
                     | _ => p.isRecurring
      recurrencePattern := if r.recurrence_pattern.truthy then some r.recurrence_pattern
                           else p.recurrencePattern }

/-- `PUT /api/pinterest/scheduled-pins/:id` after authentication: look up
the pin by id and owner; reject when it is already `posted`; reject a
truthy `scheduled_for` that is not in the future; otherwise apply the
truthy-guarded updates. -/
def updateScheduledPin (store : List Pin) (userId pinId : Nat) (r : UpdateReq) (now : Int) :
    UpdateResult :=
  match findPin store userId pinId with
  | none => .notFound
  | some existingPin =>
    if existingPin.status == .posted then
      .badRequest "Cannot update a pin that has already been posted"
    else if r.scheduled_for.truthy && r.scheduled_for.toDate ≤ now then
      .badRequest "Scheduled time must be in the future"
    else
      .ok (applyUpdates existingPin r)

/-- Result of the cancel (HTTP DELETE) handler. -/
inductive CancelResult where
  | notFound
  | badRequest (msg : String)
  | ok
deriving DecidableEq, Repr

/-- `DELETE /api/pinterest/scheduled-pins/:id` after authentication: `posted`
pins are rejected; any other found pin has its status set to `cancelled`
(both the `posting` branch and the default branch write `cancelled`).
Returns the new store and the handler result. -/
def cancelScheduledPin (store : List Pin) (userId pinId : Nat) : List Pin × CancelResult :=
  match findPin store userId pinId with
  | none => (store, .notFound)
  | some existingPin =>
    if existingPin.status == .posted then
      (store, .badRequest "Cannot delete a pin that has already been posted")
    else
      (store.map fun p =>
        if p.id == pinId && p.userId == userId then { p with status := .cancelled } else p,
       .ok)

/-- A parsed recurrence pattern: `{type, interval}`. -/
structure RecPattern where
  type_ : String
  interval : Option Int
deriving DecidableEq, Repr

/-- `['daily','weekly','monthly'].includes(pattern.type)`. -/
def validType (t : String) : Bool := t == "daily" || t == "weekly" || t == "monthly"

/-- The `recurrence_pattern` request field: absent, a string (to be passed
through `JSON.parse`), or already an object. -/
inductive RecurrenceInput where
  | absent
  | str (s : String)
  | obj (p : RecPattern)
deriving DecidableEq, Repr

def RecurrenceInput.truthy : RecurrenceInput → Bool
  | .absent => false
  | .str s => s != ""
  | .obj _ => true

/-- What the schedule-pin handler does with a request: send an HTTP
response, or let an exception escape the handler uncaught. -/
inductive ScheduleOutcome where
  | response (code : Nat) (tag : String)
  | uncaughtException
deriving DecidableEq, Repr

/-- Request body of `POST /api/pinterest/schedule-pin`, restricted to the
fields the validation logic inspects. -/
structure ScheduleReq where
  image_url : JSVal
  title : JSVal
  description : JSVal
  board_id : JSVal
  scheduled_for : JSVal
  is_recurring : Bool
  recurrence_pattern : RecurrenceInput
deriving DecidableEq, Repr

/-- The recurrence checks of the schedule-pin handler, applied to a parsed
pattern: invalid `type` or a falsy / out-of-range `interval` produce 400
responses; otherwise the handler proceeds to the insert. -/
def validateRecurrence (pat : RecPattern) : ScheduleOutcome :=
  if !validType pat.type_ then
    .response 400 "Invalid recurrence type. Must be daily, weekly, or monthly."
  else if pat.interval.getD 0 < 1 || 30 < pat.interval.getD 0 then
    .response 400 "Invalid recurrence interval. Must be between 1 and 30."
  else
    .response 200 "scheduled"

/-- `POST /api/pinterest/schedule-pin` after authentication, up to the
insert.  `jsonParse` models `JSON.parse`: `none` means the string is not
valid JSON, in which case `JSON.parse` throws — and the recurrence
validation block sits before the handler's `try`, so the exception escapes
the handler uncaught.  `hasToken` models the access-token lookup. -/
def schedulePin (jsonParse : String → Option RecPattern) (hasToken : Bool)
    (req : ScheduleReq) (now oneYearFromNow : Int) : ScheduleOutcome :=
  if !(req.image_url.truthy && req.title.truthy && req.description.truthy
        && req.board_id.truthy && req.scheduled_for.truthy) then
    .response 400 "Missing required fields"
  else if req.scheduled_for.toDate ≤ now then
    .response 400 "Scheduled time must be in the future"
  else if oneYearFromNow < req.scheduled_for.toDate then
    .response 400 "Cannot schedule more than 1 year in advance"
  else if !hasToken then
    .response 400 "No Pinterest access token found for user/account."
  else if req.is_recurring && req.recurrence_pattern.truthy then
    match req.recurrence_pattern with
    | .str s =>
      match jsonParse s with
      | none => .uncaughtException
      | some pat => validateRecurrence pat
    | .obj pat => validateRecurrence pat
    | .absent => .response 200 "scheduled"
  else
    .response 200 "scheduled"

/-- The row filter of `GET /api/pinterest/scheduled-pins`: owner, plus the
optional status filter. -/
def matchesListFilter (userId : Nat) (statusFilter : Option Status) (p : Pin) : Bool :=
  p.userId == userId &&
  (match statusFilter with
   | some s => p.status == s
   | none => true)

/-- Response of the list handler: the page and the reported `total`. -/
structure ListResponse where
  scheduled_pins : List Pin
  total : Nat
deriving DecidableEq, Repr

/-- `GET /api/pinterest/scheduled-pins` after authentication: filter by
owner (and status when given), order by `scheduled_for` ascending, apply
the `range(offset, offset + limit - 1)` window, and report `total` as
`scheduledPins.length` — the length of the returned page. -/
def listScheduledPins (store : List Pin) (userId : Nat) (statusFilter : Option Status)
    (limit offset : Nat) : ListResponse :=
  let page :=
    ((List.insertionSort dueOrder (store.filter (matchesListFilter userId statusFilter))).drop
        offset).take limit
  { scheduled_pins := page, total := page.length }

/-- `Math.round(x * 100) / 100` on exact rationals. -/
def round2 (q : ℚ) : ℚ := (⌊q * 100 + 1 / 2⌋ : ℚ) / 100

/-- The counters extracted from a normalized analytics envelope. -/
structure RawMetrics where
  impressions : Nat
  outboundClicks : Nat
  saves : Nat
  pinClicks : Nat
  closeupViews : Nat
deriving DecidableEq, Repr

/-- The three derived rate columns written back to `scheduled_pins`. -/
structure StoredRates where
  engagement_rate : ℚ
  click_through_rate : ℚ
  save_rate : ℚ
deriving DecidableEq, Repr

/-- The rate computation shared by `syncUserAnalytics` and
`POST /api/pinterest/sync-analytics`: each raw rate is
`count / impressions * 100` when `impressions > 0` and `0` otherwise, and
is stored as `Math.round(rate * 100) / 100`. -/
def computeRates (m : RawMetrics) : StoredRates :=
  let engagementRate : ℚ :=
    if 0 < m.impressions then ((m.saves + m.pinClicks : ℚ) / m.impressions) * 100 else 0
  let clickThroughRate : ℚ :=
    if 0 < m.impressions then ((m.outboundClicks : ℚ) / m.impressions) * 100 else 0
  let saveRate : ℚ :=
    if 0 < m.impressions then ((m.saves : ℚ) / m.impressions) * 100 else 0
  { engagement_rate := round2 engagementRate
    click_through_rate := round2 clickThroughRate
    save_rate := round2 saveRate }

/-- A generic scheduled row used by concrete witnesses. -/
def basePin : Pin :=
  { id := 1
    userId := 7
    title := "t"
    description := "d"
    imageUrl := "u"
    boardId := "b"
    link := ""
    timezone := "UTC"
    status := .scheduled
    scheduledFor := 0
    nextRetryAt := none
    retryCount := 0
    creditsDeducted := false
    errorMessage := none
    pinterestPinId := none
    isRecurring := false
    recurrencePattern := none
    hasAccessToken := true }

/-- A job whose `retry_count` already sits at the cap of 3. -/
def cappedPin : Pin :=
  { basePin with
      status := .failed
      retryCount := 3
      nextRetryAt := some 50
      errorMessage := some "err" }

/-- Concrete metrics with a rounding-relevant save rate: 1 save over 3
impressions gives 33.33. -/
def demoMetrics : RawMetrics := ⟨3, 0, 1, 0, 0⟩

def pinTwo : Pin := { basePin with id := 2, scheduledFor := 10 }

/-- Two rows of the same owner, both matching an unfiltered list request. -/
def demoListStore : List Pin := [basePin, pinTwo]

/-- An outcome that is not a publish success. -/
def Outcome.isFail : Outcome → Bool
  | .success _ => false
  | .failure _ => true

/-- A job already published. -/
def postedPin : Pin :=
  { basePin with id := 3, status := .posted, pinterestPinId := some "111" }

/-- A job the user has cancelled. -/
def cancelledPin : Pin := { basePin with id := 4, status := .cancelled }

/-- An update request whose every field is absent. -/
def emptyUpdateReq : UpdateReq :=
  { title := .undefined
    description := .undefined
    scheduled_for := .undefined
    timezone := .undefined
    status := none
    is_recurring := .undefined
    recurrence_pattern := .undefined }

/-- An update request supplying only `status: 'scheduled'`. -/
def reviveReq : UpdateReq := { emptyUpdateReq with status := some .scheduled }

/-- A mixed update request: falsy `title`, `scheduled_for`, `timezone` and
`recurrence_pattern` sent alongside a truthy `description` and a boolean
`is_recurring`. -/
def mixedUpdateReq : UpdateReq :=
  { title := .str ""
    description := .str "new desc"
    scheduled_for := .null
    timezone := .str ""
    status := none
    is_recurring := .bool true
    recurrence_pattern := .null }

/-- A schedule-pin request that passes every check before the recurrence
validation, with a recurring flag set and the pattern given as a string. -/
def validBaseReq : ScheduleReq :=
  { image_url := .str "http://img"
    title := .str "t"
    description := .str "d"
    board_id := .str "b"
    scheduled_for := .num 5000
    is_recurring := true
    recurrence_pattern := .str "oops" }

/-- C4: for every failure whose `retry_count` after increment is at most 3,
`handlePinError` sets status `failed`, increments `retry_count`, and sets
`next_retry_at` to the failure instant plus `5 * 3 ^ (retryCount - 1)`
minutes counted with the post-increment retry count — concretely 5, 15 and
45 minutes for the first, second and third failure. -/
theorem handlePinError_backoff (p : Pin) (msg : String) (now : Int)
    (h : p.retryCount + 1 ≤ 3) :
    (handlePinError p msg now).status = .failed
    ∧ (handlePinError p msg now).retryCount = p.retryCount + 1
    ∧ (handlePinError p msg now).nextRetryAt
        = some (now + (5 * 3 ^ (p.retryCount + 1 - 1) : Int) * 60000)
    ∧ (p.retryCount = 0 → (handlePinError p msg now).nextRetryAt = some (now + 5 * 60000))
    ∧ (p.retryCount = 1 → (handlePinError p msg now).nextRetryAt = some (now + 15 * 60000))
    ∧ (p.retryCount = 2 → (handlePinError p msg now).nextRetryAt = some (now + 45 * 60000)) := by
  have hc : p.retryCount + 1 ≤ maxRetries := h
  refine ⟨?_, ?_, ?_, ?_, ?_, ?_⟩
  · simp [handlePinError, hc]
  · simp [handlePinError, hc]
  · simp only [handlePinError, if_pos hc, backoffMinutes, minuteMs, Nat.add_sub_cancel]
    push_cast
    ring_nf
  · intro h0
    simp [handlePinError, maxRetries, backoffMinutes, minuteMs, h0]
  · intro h1
    simp [handlePinError, maxRetries, backoffMinutes, minuteMs, h1]
  · intro h2
    simp [handlePinError, maxRetries, backoffMinutes, minuteMs, h2]

/-- Witness for C4 at a concrete pin: first failure of a fresh job. -/
theorem handlePinError_backoff_witness :
    basePin.retryCount + 1 ≤ 3
    ∧ (handlePinError basePin "err" 100).status = .failed
    ∧ (handlePinError basePin "err" 100).nextRetryAt = some (100 + 5 * 60000) :=
  ⟨by decide, (handlePinError_backoff basePin "err" 100 (by decide)).1,
    (handlePinError_backoff basePin "err" 100 (by decide)).2.2.2.1 rfl⟩

/-- C5: every pin returned by the due-pin query has status `scheduled` or
`failed` (in particular never `posted` or `cancelled`), a `scheduled_for`
not in the future, and a `next_retry_at` that is null or not in the future;
the result is ordered by `scheduled_for` ascending and holds at most 10
rows. -/
theorem fetchDue_spec (store : List Pin) (now : Int) :
    (∀ p ∈ fetchDue store now,
      (p.status = .scheduled ∨ p.status = .failed)
      ∧ p.status ≠ .posted ∧ p.status ≠ .cancelled
      ∧ p.scheduledFor ≤ now
      ∧ (p.nextRetryAt = none ∨ ∃ t, p.nextRetryAt = some t ∧ t ≤ now))
    ∧ (fetchDue store now).Pairwise dueOrder
    ∧ (fetchDue store now).length ≤ 10 := by
  refine ⟨?_, ?_, ?_⟩
  · intro p hp
    have hp1 : p ∈ List.insertionSort dueOrder (store.filter (isDue now)) :=
      List.mem_of_mem_take hp
    have hp2 : p ∈ store.filter (isDue now) := (List.mem_insertionSort dueOrder).mp hp1
    have hd : isDue now p = true := (List.mem_filter.mp hp2).2
    unfold isDue at hd
    simp only [Bool.and_eq_true, Bool.or_eq_true, beq_iff_eq, decide_eq_true_eq] at hd
    obtain ⟨⟨hstat, hsf⟩, hretry⟩ := hd
    refine ⟨hstat, ?_, ?_, hsf, ?_⟩
    · rcases hstat with h | h <;> simp [h]
    · rcases hstat with h | h <;> simp [h]
    · cases hnr : p.nextRetryAt with
      | none => exact Or.inl rfl
      | some t =>
        refine Or.inr ⟨t, rfl, ?_⟩
        rw [hnr] at hretry
        simpa using hretry
  · exact (List.sorted_insertionSort dueOrder (store.filter (isDue now))).sublist
      (List.take_sublist dueLimit _)
  · exact List.length_take_le dueLimit _

/-- Witness for C5 at a concrete store and time. -/
theorem fetchDue_spec_witness :
    basePin ∈ fetchDue [basePin] 50
    ∧ ((basePin.status = .scheduled ∨ basePin.status = .failed)
        ∧ basePin.status ≠ .posted ∧ basePin.status ≠ .cancelled
        ∧ basePin.scheduledFor ≤ 50
        ∧ (basePin.nextRetryAt = none ∨ ∃ t, basePin.nextRetryAt = some t ∧ t ≤ 50))
    ∧ (fetchDue [basePin] 50).length ≤ 10 :=
  ⟨by decide, (fetchDue_spec [basePin] 50).1 basePin (by decide),
    (fetchDue_spec [basePin] 50).2.2⟩

/-- C1 fails on the code: a further failure of a job with `retry_count` = 3
does set `next_retry_at` to null and status to `failed`, but the due-pin
query has no `retry_count` cap condition and its `next_retry_at is null`
disjunct matches the permanently failed row, so a later `fetchDue` returns
the job again. -/
theorem permanentlyFailedPinStillFetched :
    (handlePinError cappedPin "boom" 100).nextRetryAt = none
    ∧ (handlePinError cappedPin "boom" 100).status = .failed
    ∧ (handlePinError cappedPin "boom" 100).retryCount = 3
    ∧ handlePinError cappedPin "boom" 100
        ∈ fetchDue [handlePinError cappedPin "boom" 100] 1000000 := by
  decide

/-- C2 fails on the code: the claim write of `processScheduledPin` is keyed
by the pin id only, so when two pollers claim the same `scheduled` job one
after the other (the serialization of the race at the store), both updates
match one row — the loser does not observe a no-op — and both pollers
proceed to publish. -/
theorem bothConcurrentClaimsSucceed :
    (claimPosting [basePin] 1).2 = 1
    ∧ (claimPosting [basePin] 1).1 = [{ basePin with status := .posting }]
    ∧ (claimPosting (claimPosting [basePin] 1).1 1).2 = 1
    ∧ (claimPosting (claimPosting [basePin] 1).1 1).1
        = [{ basePin with status := .posting }] := by
  decide

/-- C7: each stored rate is 0 when impressions is 0, and otherwise the
corresponding count divided by impressions, times 100, rounded to two
decimals — saves plus pin clicks for engagement, outbound clicks for
click-through, saves for the save rate. -/
theorem analyticsRates_spec (m : RawMetrics) :
    (m.impressions = 0 →
      (computeRates m).engagement_rate = 0
      ∧ (computeRates m).click_through_rate = 0
      ∧ (computeRates m).save_rate = 0)
    ∧ (m.impressions ≠ 0 →
      (computeRates m).engagement_rate
        = round2 (((m.saves + m.pinClicks : ℚ) / m.impressions) * 100)
      ∧ (computeRates m).click_through_rate
        = round2 (((m.outboundClicks : ℚ) / m.impressions) * 100)
      ∧ (computeRates m).save_rate
        = round2 (((m.saves : ℚ) / m.impressions) * 100)) := by
  constructor
  · intro h0
    refine ⟨?_, ?_, ?_⟩ <;> · simp [computeRates, h0, round2]; norm_num
  · intro hne
    have hpos : 0 < m.impressions := Nat.pos_of_ne_zero hne
    exact ⟨by simp [computeRates, hpos], by simp [computeRates, hpos],
      by simp [computeRates, hpos]⟩

/-- Witness for C7 at concrete metrics. -/
theorem analyticsRates_spec_witness :
    demoMetrics.impressions ≠ 0
    ∧ (computeRates demoMetrics).save_rate
        = round2 (((demoMetrics.saves : ℚ) / demoMetrics.impressions) * 100)
    ∧ (computeRates demoMetrics).save_rate = 3333 / 100 :=
  ⟨by decide, ((analyticsRates_spec demoMetrics).2 (by decide)).2.2,
    by norm_num [computeRates, demoMetrics, round2, Int.floor_eq_iff]⟩

/-- C10: the list handler's `total` is the length of the returned page for
every request, and on a store of two matching rows with `limit` 1 it
reports 1 although 2 rows match the filter. -/
theorem listTotal_isPageLength :
    (∀ (store : List Pin) (userId : Nat) (sf : Option Status) (limit offset : Nat),
      (listScheduledPins store userId sf limit offset).total
        = (listScheduledPins store userId sf limit offset).scheduled_pins.length)
    ∧ (listScheduledPins demoListStore 7 none 1 0).total = 1
    ∧ (demoListStore.filter (matchesListFilter 7 none)).length = 2 := by
  refine ⟨fun _ _ _ _ _ => rfl, by decide, by decide⟩

/-- The retry-policy update never touches `credits_deducted`. -/
lemma handlePinError_creditsDeducted (p : Pin) (msg : String) (now : Int) :
    (handlePinError p msg now).creditsDeducted = p.creditsDeducted := by
  simp only [handlePinError]
  split <;> rfl

/-- A due pin has status `scheduled` or `failed`. -/
lemma isDue_status (now : Int) (p : Pin) (h : isDue now p = true) :
    p.status = .scheduled ∨ p.status = .failed := by
  unfold isDue at h
  simp only [Bool.and_eq_true, Bool.or_eq_true, beq_iff_eq] at h
  exact h.1.1

/-- The `credits_deducted` flag is never unset by a scheduler step. -/
lemma schedStep_flag_mono (s : JobState) (ev : Int × Outcome)
    (h : s.pin.creditsDeducted = true) :
    (schedStep s ev).pin.creditsDeducted = true := by
  obtain ⟨t, o⟩ := ev
  unfold schedStep
  by_cases hd : isDue t s.pin
  · rw [if_pos hd]
    cases o with
    | success pid => simp [attempt, markPosted, h]
    | failure msg => simp [attempt, handlePinError_creditsDeducted, h]
  · rw [if_neg hd]; exact h

/-- A step that turns the `credits_deducted` flag on is exactly a step into
`posted` from a due (hence non-`posted`) state. -/
lemma schedStep_flag_flip (s : JobState) (ev : Int × Outcome)
    (h0 : s.pin.creditsDeducted = false)
    (h1 : (schedStep s ev).pin.creditsDeducted = true) :
    (schedStep s ev).pin.status = .posted ∧ s.pin.status ≠ .posted := by
  obtain ⟨t, o⟩ := ev
  unfold schedStep at h1 ⊢
  by_cases hd : isDue t s.pin
  · rw [if_pos hd] at h1 ⊢
    have hne : s.pin.status ≠ .posted := by
      rcases isDue_status t s.pin hd with h | h <;> simp [h]
    cases o with
    | success pid =>
      refine ⟨?_, hne⟩
      simp [attempt, h0, markPosted]
    | failure msg =>
      rw [show (attempt s (Outcome.failure msg) t).pin = handlePinError s.pin msg t from rfl,
        handlePinError_creditsDeducted, h0] at h1
      cases h1
  · rw [if_neg hd] at h1
    rw [h0] at h1
    cases h1

/-- Invariant carried along a history: the debit count is at most one, and
still zero while the flag is false. -/
lemma runSched_debits_invariant (evs : List (Int × Outcome)) :
    ∀ s : JobState, s.debits ≤ 1 → (s.pin.creditsDeducted = false → s.debits = 0) →
      (runSched s evs).debits ≤ 1
      ∧ ((runSched s evs).pin.creditsDeducted = false → (runSched s evs).debits = 0) := by
  induction evs with
  | nil => exact fun s h1 h2 => ⟨h1, h2⟩
  | cons ev rest ih =>
    intro s h1 h2
    have hrw : runSched s (ev :: rest) = runSched (schedStep s ev) rest := rfl
    rw [hrw]
    obtain ⟨t, o⟩ := ev
    refine ih _ ?_ ?_
    · unfold schedStep
      by_cases hd : isDue t s.pin
      · rw [if_pos hd]
        cases o with
        | success pid =>
          cases hf : s.pin.creditsDeducted with
          | true => simpa [attempt, hf] using h1
          | false => simp [attempt, hf, h2 hf]
        | failure msg => simpa [attempt] using h1
      · rw [if_neg hd]; exact h1
    · unfold schedStep
      by_cases hd : isDue t s.pin
      · rw [if_pos hd]
        cases o with
        | success pid =>
          cases hf : s.pin.creditsDeducted with
          | true =>
            intro hflag
            simp [attempt, hf, markPosted] at hflag
          | false =>
            intro hflag
            simp [attempt, hf] at hflag
        | failure msg =>
          intro hflag
          have hsf : s.pin.creditsDeducted = false := by
            simpa [attempt, handlePinError_creditsDeducted] using hflag
          simpa [attempt] using h2 hsf
      · rw [if_neg hd]; exact h2

/-- A history of failures only never changes the debit count. -/
lemma runSched_failures_debits (evs : List (Int × Outcome)) :
    ∀ s : JobState, (∀ ev ∈ evs, ev.2.isFail = true) →
      (runSched s evs).debits = s.debits := by
  induction evs with
  | nil => exact fun s _ => rfl
  | cons ev rest ih =>
    intro s hfail
    have hrw : runSched s (ev :: rest) = runSched (schedStep s ev) rest := rfl
    rw [hrw, ih (schedStep s ev) (fun e he => hfail e (List.mem_cons_of_mem ev he))]
    obtain ⟨t, o⟩ := ev
    cases o with
    | success pid =>
      have hc := hfail (t, Outcome.success pid) (List.mem_cons_self _ _)
      simp [Outcome.isFail] at hc
    | failure msg =>
      unfold schedStep
      by_cases hd : isDue t s.pin
      · rw [if_pos hd]; simp [attempt]
      · rw [if_neg hd]

/-- C3: across any execution history of a job created with
`credits_deducted` false, `deductUserCredits` is invoked at most once; a
history with no successful publish — in particular one that ends
permanently failed — never debits; and the flag is monotone and flips only
on a step whose result is `posted` from a non-`posted` state, so it is set
at most once and only on the transition into `posted`. -/
theorem creditsDeducted_atMostOnce (p : Pin) (c : Int) (evs : List (Int × Outcome))
    (hflag : p.creditsDeducted = false) :
    (runSched ⟨p, c, 0⟩ evs).debits ≤ 1
    ∧ ((∀ ev ∈ evs, ev.2.isFail = true) → (runSched ⟨p, c, 0⟩ evs).debits = 0)
    ∧ (∀ (s : JobState) (ev : Int × Outcome),
        s.pin.creditsDeducted = false → (schedStep s ev).pin.creditsDeducted = true →
        (schedStep s ev).pin.status = .posted ∧ s.pin.status ≠ .posted)
    ∧ (∀ (s : JobState) (ev : Int × Outcome),
        s.pin.creditsDeducted = true → (schedStep s ev).pin.creditsDeducted = true) := by
  have h0 : (⟨p, c, 0⟩ : JobState).pin.creditsDeducted = false := hflag
  exact ⟨(runSched_debits_invariant evs ⟨p, c, 0⟩ (by simp) (fun _ => rfl)).1,
    fun hfail => runSched_failures_debits evs ⟨p, c, 0⟩ hfail,
    fun s ev ha hb => schedStep_flag_flip s ev ha hb,
    fun s ev h => schedStep_flag_mono s ev h⟩

/-- Witness for C3: a history of one failure then one success performs
exactly one debit, hence at most one. -/
theorem creditsDeducted_atMostOnce_witness :
    basePin.creditsDeducted = false
    ∧ (runSched ⟨basePin, 10, 0⟩
        [(0, Outcome.failure "e"), (400000, Outcome.success "pid")]).debits ≤ 1
    ∧ (runSched ⟨basePin, 10, 0⟩
        [(0, Outcome.failure "e"), (400000, Outcome.success "pid")]).debits = 1 :=
  ⟨rfl,
    (creditsDeducted_atMostOnce basePin 10
      [(0, Outcome.failure "e"), (400000, Outcome.success "pid")] rfl).1,
    by decide⟩

/-- C6 fails on the code: the update handler only rejects pins whose status
is `posted`, so an update request supplying `status: 'scheduled'` on a
`cancelled` pin succeeds and moves the pin out of `cancelled` — `cancelled`
is not absorbing. -/
theorem cancelledPin_statusChangedByUpdate :
    updateScheduledPin [cancelledPin] cancelledPin.userId cancelledPin.id reviveReq 0
      = .ok { cancelledPin with status := .scheduled }
    ∧ cancelledPin.status = .cancelled := by
  constructor
  · decide
  · rfl

/-- C6 amended: `posted` is absorbing — the update and cancel handlers
reject a posted pin, leaving the store unchanged, and the due-pin query
never selects it — and the update operation rejects any update once the
status is `posted`; `cancelled`, however, is not absorbing: the update
handler accepts a cancelled pin and writes any supplied status. -/
theorem postedAbsorbing_cancelledNot (store : List Pin) (userId pinId : Nat)
    (r : UpdateReq) (now : Int) (q : Pin)
    (hfind : findPin store userId pinId = some q) :
    (q.status = .posted →
      updateScheduledPin store userId pinId r now
        = .badRequest "Cannot update a pin that has already been posted"
      ∧ cancelScheduledPin store userId pinId
        = (store, .badRequest "Cannot delete a pin that has already been posted")
      ∧ ∀ t, q ∉ fetchDue store t)
    ∧ (q.status = .cancelled → r.scheduled_for.truthy = false →
      updateScheduledPin store userId pinId r now = .ok (applyUpdates q r)
      ∧ ∀ st, r.status = some st → (applyUpdates q r).status = st) := by
  constructor
  · intro hpost
    refine ⟨?_, ?_, ?_⟩
    · simp [updateScheduledPin, hfind, hpost]
    · simp [cancelScheduledPin, hfind, hpost]
    · intro t hmem
      have h1 : q ∈ List.insertionSort dueOrder (store.filter (isDue t)) :=
        List.mem_of_mem_take hmem
      have h2 : q ∈ store.filter (isDue t) := (List.mem_insertionSort dueOrder).mp h1
      have h3 := (List.mem_filter.mp h2).2
      rcases isDue_status t q h3 with h | h <;> rw [hpost] at h <;> cases h
  · intro hcanc hsf
    have hne : (q.status == Status.posted) = false := by simp [hcanc]
    constructor
    · simp [updateScheduledPin, hfind, hne, hsf]
    · intro st hst
      simp [applyUpdates, hst]

/-- Witness for the amended C6 at a concrete posted pin. -/
theorem postedAbsorbing_witness :
    findPin [postedPin] 7 3 = some postedPin
    ∧ postedPin.status = .posted
    ∧ updateScheduledPin [postedPin] 7 3 emptyUpdateReq 0
        = .badRequest "Cannot update a pin that has already been posted"
    ∧ postedPin ∉ fetchDue [postedPin] 99 :=
  ⟨by decide, rfl,
    ((postedAbsorbing_cancelledNot [postedPin] 7 3 emptyUpdateReq 0 postedPin
      (by decide)).1 rfl).1,
    ((postedAbsorbing_cancelledNot [postedPin] 7 3 emptyUpdateReq 0 postedPin
      (by decide)).1 rfl).2.2 99⟩

/-- C8: with `is_recurring` true and `recurrence_pattern` a non-empty string
that is not valid JSON, the schedule-pin handler passes every earlier check
and reaches the `JSON.parse` call that sits outside its `try` block, so the
request ends in an uncaught exception rather than a synchronous
validation-error response. -/
theorem invalidRecurrenceJson_throws (jsonParse : String → Option RecPattern)
    (s : String) (hbad : jsonParse s = none) (hne : s ≠ "") :
    schedulePin jsonParse true { validBaseReq with recurrence_pattern := .str s } 0 1000000
      = .uncaughtException := by
  have hs : (RecurrenceInput.str s).truthy = true := by
    simp [RecurrenceInput.truthy, hne]
  simp [schedulePin, validBaseReq, JSVal.truthy, JSVal.toDate, hs, hbad]

/-- Witness for C8: a concrete parse function and string. -/
theorem invalidRecurrenceJson_throws_witness :
    (fun _ : String => (none : Option RecPattern)) "oops" = none
    ∧ ("oops" : String) ≠ ""
    ∧ schedulePin (fun _ => (none : Option RecPattern)) true
        { validBaseReq with recurrence_pattern := .str "oops" } 0 1000000
      = .uncaughtException :=
  ⟨rfl, by decide, invalidRecurrenceJson_throws (fun _ => none) "oops" rfl (by decide)⟩

/-- C9: in an update of a non-posted pin, each supplied field whose value is
falsy is — individually, whatever the other fields carry — ignored, its
stored column left unchanged, so a client cannot clear `title`,
`description`, `timezone` or the schedule time; `is_recurring` instead is
applied exactly when it is a boolean.  Whenever the request survives the
schedule-time validation (in particular whenever `scheduled_for` is falsy),
the handler answers `.ok` with exactly these updates applied. -/
theorem falsyUpdateFieldsIgnored (store : List Pin) (userId pinId : Nat)
    (r : UpdateReq) (now : Int) (q : Pin)
    (hfind : findPin store userId pinId = some q)
    (hnp : q.status ≠ .posted) :
    (¬(r.scheduled_for.truthy = true ∧ r.scheduled_for.toDate ≤ now) →
        updateScheduledPin store userId pinId r now = .ok (applyUpdates q r))
    ∧ (r.title.truthy = false → (applyUpdates q r).title = q.title)
    ∧ (r.description.truthy = false → (applyUpdates q r).description = q.description)
    ∧ (r.scheduled_for.truthy = false → (applyUpdates q r).scheduledFor = q.scheduledFor)
    ∧ (r.timezone.truthy = false → (applyUpdates q r).timezone = q.timezone)
    ∧ (r.status = none → (applyUpdates q r).status = q.status)
    ∧ (r.recurrence_pattern.truthy = false →
        (applyUpdates q r).recurrencePattern = q.recurrencePattern)
    ∧ (∀ b, r.is_recurring = JSVal.bool b → (applyUpdates q r).isRecurring = b) := by
  refine ⟨?_, ?_, ?_, ?_, ?_, ?_, ?_, ?_⟩
  · intro hv
    have hc : (r.scheduled_for.truthy && decide (r.scheduled_for.toDate ≤ now)) = false := by
      cases h1 : r.scheduled_for.truthy with
      | false => rfl
      | true =>
        by_cases h2 : r.scheduled_for.toDate ≤ now
        · exact absurd ⟨h1, h2⟩ hv
        · simp [h2]
    simp [updateScheduledPin, hfind, hnp, hc]
  · intro ht; simp [applyUpdates, ht]
  · intro hd; simp [applyUpdates, hd]
  · intro hs; simp [applyUpdates, hs]
  · intro htz; simp [applyUpdates, htz]
  · intro hst; simp [applyUpdates, hst]
  · intro hrp; simp [applyUpdates, hrp]
  · intro b hb
    simp [applyUpdates, hb]

/-- Witness for C9 on a mixed request: the falsy `title` and `scheduled_for`
are ignored and their columns unchanged even though the same request's
truthy `description` is applied, and the boolean `is_recurring` is
applied. -/
theorem falsyUpdateFieldsIgnored_witness :
    findPin [basePin] 7 1 = some basePin
    ∧ basePin.status ≠ .posted
    ∧ updateScheduledPin [basePin] 7 1 mixedUpdateReq 0
        = .ok (applyUpdates basePin mixedUpdateReq)
    ∧ (applyUpdates basePin mixedUpdateReq).title = basePin.title
    ∧ (applyUpdates basePin mixedUpdateReq).scheduledFor = basePin.scheduledFor
    ∧ (applyUpdates basePin mixedUpdateReq).description = "new desc"
    ∧ (applyUpdates basePin mixedUpdateReq).isRecurring = true :=
  ⟨by decide, by decide,
    (falsyUpdateFieldsIgnored [basePin] 7 1 mixedUpdateReq 0 basePin
      (by decide) (by decide)).1 (by decide),
    (falsyUpdateFieldsIgnored [basePin] 7 1 mixedUpdateReq 0 basePin
      (by decide) (by decide)).2.1 rfl,
    (falsyUpdateFieldsIgnored [basePin] 7 1 mixedUpdateReq 0 basePin
      (by decide) (by decide)).2.2.2.1 rfl,
    by decide,
    (falsyUpdateFieldsIgnored [basePin] 7 1 mixedUpdateReq 0 basePin
      (by decide) (by decide)).2.2.2.2.2.2.2 true rfl⟩
